import Mathlib

/-!
# Verification of the sortoi core against its specification

Shallow embedding of the sortoi file-organizer core (TypeScript) in Lean 4:
the path helpers used by the code (Node `path`, POSIX regime), the
`ConflictResolver`, the `FileOrganizer`, the `HistoryService` operation
journal, the SQLite-backed result cache, the `CategorizationService`
retry/classification logic and the `PathValidator`.  Filesystem effects are
made explicit (a functional store / an existence oracle); everything else is
translated statement by statement from the source.
-/

namespace Sortoi

/-! ## String primitives

Computable counterparts of the JavaScript string operations the source
uses (`startsWith`, `endsWith`, `includes`, `replace`, `toLowerCase`,
`toUpperCase`, `split`, `trim`), written by structural recursion on the
character list so that every theorem below evaluates inside the kernel. -/

/-- JS `String.prototype.startsWith`. -/
def strStartsWith (s pre : String) : Bool := List.isPrefixOf pre.data s.data

/-- JS `String.prototype.endsWith`. -/
def strEndsWith (s suf : String) : Bool := List.isPrefixOf suf.data.reverse s.data.reverse

/-- Core of `strContains`: does `needle` occur as a contiguous run of
`haystack`? -/
def listInfix (needle : List Char) : List Char → Bool
  | [] => needle.isEmpty
  | c :: rest => List.isPrefixOf needle (c :: rest) || listInfix needle rest

/-- JS `String.prototype.includes`. -/
def strContains (haystack needle : String) : Bool := listInfix needle.data haystack.data

/-- JS `String.prototype.split(sep)` for a one-character separator,
on character lists (`cur` holds the current field in reverse). -/
def splitCharsAux (sep : Char) : List Char → List Char → List (List Char)
  | cur, [] => [cur.reverse]
  | cur, c :: rest =>
    if c = sep then cur.reverse :: splitCharsAux sep [] rest
    else splitCharsAux sep (c :: cur) rest

/-- JS `String.prototype.split(sep)` for a one-character separator. -/
def splitChar (sep : Char) (s : String) : List String :=
  (splitCharsAux sep [] s.data).map String.mk

/-- JS `String.prototype.toLowerCase` (ASCII regime, as exercised by the
source's error-message matching). -/
def strLower (s : String) : String := String.mk (s.data.map Char.toLower)

/-- JS `String.prototype.toUpperCase` (ASCII regime). -/
def strUpper (s : String) : String := String.mk (s.data.map Char.toUpper)

/-- JS `String.prototype.trim` (ASCII whitespace regime). -/
def strTrim (s : String) : String :=
  String.mk ((s.data.dropWhile Char.isWhitespace).reverse.dropWhile Char.isWhitespace).reverse

/-- Concatenate with a separator string (the rendering half of the Node
path functions below). -/
def joinSep (sep : String) : List String → String
  | [] => ""
  | [p] => p
  | p :: rest => p ++ sep ++ joinSep sep rest

/-! ## Node `path` model (POSIX regime)

The repository runs the Node `path` module functions on POSIX-style paths
(`path.resolve`, `path.join`, `path.basename`, `path.dirname`,
`path.extname`).  We model them on `/`-separated strings, faithful on the
path shapes the source feeds them (no Windows drive handling: the POSIX
regime). -/

/-- Split a path string on the `/` separator. -/
def splitSegs (s : String) : List String := splitChar '/' s

/-- Segment normalization: `""` and `"."` are dropped; `".."` pops the last
real segment when one exists; in absolute mode a `".."` at the root is
clamped away, in relative mode it is kept (Node `path.normalize`
behaviour).  `acc` holds the processed segments in reverse. -/
def normLoop (isAbs : Bool) : List String → List String → List String
  | acc, [] => acc.reverse
  | acc, seg :: rest =>
    if seg = "" ∨ seg = "." then normLoop isAbs acc rest
    else if seg = ".." then
      match acc with
      | top :: tl =>
        if top = ".." then normLoop isAbs (".." :: top :: tl) rest
        else normLoop isAbs tl rest
      | [] => if isAbs then normLoop isAbs [] rest else normLoop isAbs [".."] rest
    else normLoop isAbs (seg :: acc) rest

/-- Render an absolute path from its normalized segments. -/
def renderAbs (segs : List String) : String := "/" ++ joinSep "/" segs

/-- Node `path.normalize` (POSIX). -/
def pathNormalize (s : String) : String :=
  if strStartsWith s "/" then renderAbs (normLoop true [] (splitSegs s))
  else
    let segs := normLoop false [] (splitSegs s)
    if segs = [] then "." else joinSep "/" segs

/-- Node `path.join` (POSIX): concatenate the non-empty parts with `/` and
normalize. -/
def pathJoinList (parts : List String) : String :=
  let joined := joinSep "/" (parts.filter (fun p => p ≠ ""))
  if joined = "" then "." else pathNormalize joined

/-- Node `path.resolve` (POSIX) with an explicit current working directory
(`process.cwd()`), assumed absolute: an absolute input is normalized on its
own, a relative input is resolved against `cwd`. -/
def pathResolve (cwd : String) (p : String) : String :=
  if strStartsWith p "/" then renderAbs (normLoop true [] (splitSegs p))
  else renderAbs (normLoop true [] (splitSegs cwd ++ splitSegs p))

/-- Node `path.basename` (POSIX): the last non-empty segment. -/
def pathBasename (p : String) : String :=
  match ((splitSegs p).filter (fun c => c ≠ "")).reverse with
  | [] => ""
  | b :: _ => b

/-- Node `path.dirname` (POSIX), on paths without a trailing separator (the
only shape the source feeds it). -/
def pathDirname (p : String) : String :=
  match splitSegs p with
  | [] => "."
  | [_] => "."
  | parts =>
    let front := parts.dropLast
    if front.all (fun c => c = "") then "/" else joinSep "/" front

/-- Node `path.extname` (POSIX): the suffix of the basename from its last
`.`, empty when the only `.` is the leading character. -/
def pathExtname (p : String) : String :=
  let cs := (pathBasename p).data
  if cs.contains '.' then
    let tail := (cs.reverse.takeWhile (fun c => c ≠ '.')).reverse
    let dotIdx := cs.length - tail.length - 1
    if dotIdx > 0 then String.mk ('.' :: tail) else ""
  else ""

/-- Node `path.basename(p, ext)` (POSIX): the basename with the suffix
`ext` stripped when it carries it. -/
def pathBasenameExt (p ext : String) : String :=
  let b := pathBasename p
  if ext ≠ "" ∧ strEndsWith b ext ∧ b ≠ ext then
    String.mk (b.data.take (b.data.length - ext.data.length))
  else b

/-! ## Data model (`types.ts`, `constants.ts`) -/

/-- Model of `CategorizedFile` from `types.ts`: path, category, optional
subcategory, optional content hash. -/
structure CategorizedFile where
  path : String
  category : String
  subcategory : Option String := none
  hash : Option String := none
deriving DecidableEq, Repr

/-- Model of `FileOperationResult` from `types.ts`. -/
structure FileOperationResult where
  success : Bool
  sourcePath : String
  destinationPath : Option String := none
  skipped : Bool := false
  error : Option String := none
deriving DecidableEq, Repr

/-- Model of `ConflictStrategy` enum from `constants.ts`. -/
inductive ConflictStrategy where
  | skip
  | overwrite
  | rename
  | ask
deriving DecidableEq, Repr

/-- Model of `LIMITS.MAX_CONCURRENCY` from `constants.ts`. -/
def LIMITS_MAX_CONCURRENCY : Nat := 5

/-- Model of `LIMITS.MAX_RETRIES` from `constants.ts`. -/
def LIMITS_MAX_RETRIES : Nat := 3

/-- Model of `RETRY.BASE_DELAY_MS` from `constants.ts`. -/
def RETRY_BASE_DELAY_MS : Nat := 1000

/-- Model of `RETRY.MAX_DELAY_MS` from `constants.ts`. -/
def RETRY_MAX_DELAY_MS : Nat := 10000

/-! ## ConflictResolver (`ConflictResolver.ts`)

The resolver's only effect is filesystem existence probing, so it is
embedded as a function of an existence oracle `fileExists` (the
`fs.access`-based `fileExists` private helper of the class). -/

/-- The two failure shapes `ConflictResolver.resolve` can throw: the
`ConflictSkipError` class (carrying the destination path) and plain
`Error`s identified by message. -/
inductive ResolveError where
  | conflictSkip (filePath : String)
  | other (message : String)
deriving DecidableEq, Repr

instance {ε α : Type} [DecidableEq ε] [DecidableEq α] : DecidableEq (Except ε α) :=
  fun a b =>
    match a, b with
    | .ok x, .ok y =>
      if h : x = y then .isTrue (by rw [h]) else .isFalse (by intro hc; cases hc; exact h rfl)
    | .error x, .error y =>
      if h : x = y then .isTrue (by rw [h]) else .isFalse (by intro hc; cases hc; exact h rfl)
    | .ok _, .error _ => .isFalse (by intro hc; cases hc)
    | .error _, .ok _ => .isFalse (by intro hc; cases hc)

/-- The do/while loop of `ConflictResolver.findAvailableName`
(`ConflictResolver.ts` lines 62-73), with the remaining iteration budget
`fuel` kept as `1001 - counter` so the recursion is structural: build
`dir/baseName(counter)ext`, increment the counter, throw
`Too many file conflicts` once the incremented counter exceeds 1000, and
otherwise loop while the candidate exists. -/
def findLoopAux (fileExists : String → Bool) (filePath dir baseName ext : String) :
    Nat → Nat → Except ResolveError String
  | 0, _ => .error (.other ("Too many file conflicts for " ++ filePath))
  | fuel + 1, counter =>
    let newPath := pathJoinList [dir, baseName ++ "(" ++ toString counter ++ ")" ++ ext]
    if counter + 1 > 1000 then
      .error (.other ("Too many file conflicts for " ++ filePath))
    else if fileExists newPath then
      findLoopAux fileExists filePath dir baseName ext fuel (counter + 1)
    else
      .ok newPath

/-- The `findAvailableName` loop entered at `counter` (the fuel value
`1001 - counter` makes the `fuel = 0` base case coincide with the
`counter + 1 > 1000` cutoff, so the numeric guard stays the deciding
test). -/
def findLoop (fileExists : String → Bool) (filePath dir baseName ext : String)
    (counter : Nat) : Except ResolveError String :=
  findLoopAux fileExists filePath dir baseName ext (1001 - counter) counter

/-- Model of `ConflictResolver.findAvailableName`: probe `name(1).ext`,
`name(2).ext`, … starting from counter 1. -/
def findAvailableName (fileExists : String → Bool) (filePath : String) :
    Except ResolveError String :=
  let dir := pathDirname filePath
  let ext := pathExtname filePath
  let baseName := pathBasenameExt filePath ext
  findLoop fileExists filePath dir baseName ext 1

/-- Model of `ConflictResolver.resolve`: return the intended destination untouched
when it does not exist, otherwise dispatch on the strategy. -/
def resolve (fileExists : String → Bool) (sourcePath destinationPath : String)
    (strategy : ConflictStrategy) : Except ResolveError String :=
  if fileExists destinationPath = false then .ok destinationPath
  else
    match strategy with
    | .skip => .error (.conflictSkip destinationPath)
    | .overwrite => .ok destinationPath
    | .rename => findAvailableName fileExists destinationPath
    | .ask => .error (.other "Interactive conflict resolution not yet implemented")

/-! ## Operation journal records (`HistoryService.ts`) -/

/-- The discriminator of a `FileOperation` record. -/
inductive OpType where
  | move
  | create_directory
deriving DecidableEq, Repr

/-- Model of `FileOperation` from `HistoryService.ts`: a journal record with a
discriminator and the optional per-kind path fields. -/
structure FileOperation where
  type : OpType
  sourcePath : Option String := none
  destinationPath : Option String := none
  directoryPath : Option String := none
  timestamp : Nat := 0
deriving DecidableEq, Repr

/-! ## FileOrganizer (`FileOrganizer.ts`)

`organizeFile` is embedded with its filesystem effects reified: it returns
the outcome together with the list of mutations performed (`fs.mkdir`,
`fs.rename`) and the journal records it hands to the history service when
a session is active.  A thrown error is an `Except.error` carrying the
message. -/

/-- A filesystem mutation performed by `FileOrganizer.organizeFile`. -/
inductive FsAction where
  | mkdirRecursive (path : String)
  | renameFile (source dest : String)
deriving DecidableEq, Repr

/-- Model of `FileOrganizer.organizeFile` (`FileOrganizer.ts` lines 52-142):
compute `baseDir/category[/subcategory]`, run the `startsWith` security
check on the resolved paths, return early on dry-run, otherwise create the
category directory, resolve conflicts and move the file, recording journal
records when `sessionActive` (the code's `sessionId && this.historyService`
guard) holds. -/
def organizeFile (fileExists : String → Bool) (cwd : String)
    (baseDirectory : String) (file : CategorizedFile)
    (conflictStrategy : ConflictStrategy) (dryRun : Bool) (sessionActive : Bool) :
    Except String (FileOperationResult × List FsAction × List FileOperation) :=
  let categoryPath :=
    match file.subcategory with
    | some sub => pathJoinList [baseDirectory, file.category, sub]
    | none => pathJoinList [baseDirectory, file.category]
  let resolvedCategoryPath := pathResolve cwd categoryPath
  let resolvedBaseDir := pathResolve cwd baseDirectory
  if strStartsWith resolvedCategoryPath resolvedBaseDir = false then
    .error ("Security breach: AI suggested category \"" ++ file.category ++
      "\" escapes the base directory.")
  else
    let fileName := pathBasename file.path
    let destinationPath := pathJoinList [resolvedCategoryPath, fileName]
    if dryRun then
      .ok ({ success := true, sourcePath := file.path,
             destinationPath := some destinationPath }, [], [])
    else
      let mkdirActions : List FsAction := [.mkdirRecursive categoryPath]
      let dirRecords : List FileOperation :=
        if sessionActive then
          [{ type := .create_directory, directoryPath := some categoryPath }]
        else []
      match resolve fileExists file.path destinationPath conflictStrategy with
      | .error (.conflictSkip _) =>
        .ok ({ success := true, sourcePath := file.path,
               destinationPath := some destinationPath, skipped := true },
             mkdirActions, dirRecords)
      | .error (.other msg) => .error msg
      | .ok finalDest =>
        let moveRecords : List FileOperation :=
          if sessionActive then
            [{ type := .move, sourcePath := some file.path,
               destinationPath := some finalDest }]
          else []
        .ok ({ success := true, sourcePath := file.path,
               destinationPath := some finalDest },
             mkdirActions ++ [.renameFile file.path finalDest],
             dirRecords ++ moveRecords)

/-- The specification's notion of a path staying within a base directory
(spec 4.5: the resolved destination "stays within `baseDir` after
normalization"): it is the base itself or lies strictly below it. -/
def specWithinBase (base p : String) : Bool :=
  p = base || strStartsWith p (base ++ "/")

/-! ## Filesystem store for rollback (`fs.rename` / `fs.rmdir`)

`HistoryService.revertOperation` touches the filesystem through
`fs.rename(dest, source)` and `fs.rmdir(path)`.  We model the store as the
set of existing file paths plus the set of existing directory paths, with
the Node failure behaviour the rollback code observes: `rename` fails when
the file to move does not exist, `rmdir` fails when the directory is
missing or still has entries. -/

/-- The filesystem store: existing files and directories by path. -/
structure FS where
  files : List String
  dirs : List String
deriving DecidableEq, Repr

/-- Model of `fs.rename(oldPath, newPath)` on a file: fails with `ENOENT` when
`oldPath` does not exist, otherwise the file now lives at `newPath`
(silently replacing any file already there, POSIX rename). -/
def fsRename (fs : FS) (oldPath newPath : String) : Except String FS :=
  if fs.files.contains oldPath then
    .ok { fs with files := (fs.files.filter (fun f => f ≠ oldPath ∧ f ≠ newPath)) ++ [newPath] }
  else
    .error ("ENOENT: no such file or directory, rename " ++ oldPath)

/-- Is the directory `d` empty: no file and no other directory lies
strictly below it? -/
def FS.dirIsEmpty (fs : FS) (d : String) : Bool :=
  fs.files.all (fun f => !(strStartsWith f (d ++ "/"))) &&
  fs.dirs.all (fun e => e = d || !(strStartsWith e (d ++ "/")))

/-- Model of `fs.rmdir(d)`: fails when `d` is missing (`ENOENT`) or non-empty
(`ENOTEMPTY`). -/
def fsRmdir (fs : FS) (d : String) : Except String FS :=
  if fs.dirs.contains d then
    if fs.dirIsEmpty d then .ok { fs with dirs := fs.dirs.filter (fun e => e ≠ d) }
    else .error ("ENOTEMPTY: directory not empty, rmdir " ++ d)
  else
    .error ("ENOENT: no such file or directory, rmdir " ++ d)

/-! ## HistoryService (`HistoryService.ts`) -/

/-- Model of `OperationHistory` from `HistoryService.ts`: one session of the
operation journal. -/
structure OperationHistory where
  sessionId : String
  startTime : Nat := 0
  endTime : Option Nat := none
  operations : List FileOperation := []
  rolledBack : Bool := false
deriving DecidableEq, Repr

/-- Model of `RollbackResult` from `HistoryService.ts`. -/
structure RollbackResult where
  success : Bool
  operationsReverted : Nat
  errors : List (FileOperation × String)
deriving DecidableEq, Repr

/-- The `HistoryService.sessions` map, as an association list keyed by
session id. -/
abbrev Sessions := List (String × OperationHistory)

/-- Model of `HistoryService.revertOperation` (`HistoryService.ts` lines 698-735):
undo one record.  A *move* record is undone by `fs.rename(destination,
source)` (a missing/falsy path field is an error); a *create_directory*
record is undone by an `fs.rmdir` whose failure is swallowed. -/
def revertOperation (fs : FS) (operation : FileOperation) : Except String FS :=
  match operation.type with
  | .move =>
    match operation.sourcePath, operation.destinationPath with
    | some src, some dst =>
      if src = "" ∨ dst = "" then .error "Invalid move operation: missing paths"
      else fsRename fs dst src
    | _, _ => .error "Invalid move operation: missing paths"
  | .create_directory =>
    match operation.directoryPath with
    | some d =>
      if d = "" then .error "Invalid directory operation: missing path"
      else
        match fsRmdir fs d with
        | .ok fs' => .ok fs'
        | .error _ => .ok fs
    | none => .error "Invalid directory operation: missing path"

/-- The revert loop of `HistoryService.rollback` (lines 670-684): walk the
already-reversed record list, revert each record, count successes, collect
per-record failures, and keep going after a failure. -/
def runReverts : List FileOperation → FS → RollbackResult → FS × RollbackResult
  | [], fs, acc => (fs, acc)
  | op :: rest, fs, acc =>
    match revertOperation fs op with
    | .ok fs' =>
      runReverts rest fs' { acc with operationsReverted := acc.operationsReverted + 1 }
    | .error e =>
      runReverts rest fs { acc with success := false, errors := acc.errors ++ [(op, e)] }

/-- Mark one session of the map as rolled back. -/
def markRolledBack : Sessions → String → Sessions
  | [], _ => []
  | (k, v) :: rest, sessionId =>
    (if k = sessionId then (k, { v with rolledBack := true }) else (k, v)) ::
      markRolledBack rest sessionId

/-- Model of `HistoryService.rollback` (`HistoryService.ts` lines 645-696): throw on
an unknown or already-rolled-back session (leaving journal and filesystem
untouched), otherwise revert the session's records in reverse order and
mark the session rolled back. -/
def rollback (st : Sessions) (fs : FS) (sessionId : String) :
    Except String RollbackResult × Sessions × FS :=
  match List.lookup sessionId st with
  | none => (.error ("Session not found: " ++ sessionId), st, fs)
  | some session =>
    if session.rolledBack then
      (.error ("Session already rolled back: " ++ sessionId), st, fs)
    else
      let init : RollbackResult := { success := true, operationsReverted := 0, errors := [] }
      let out := runReverts session.operations.reverse fs init
      (.ok out.2, markRolledBack st sessionId, out.1)

/-! ## Result cache (`SQLiteDatabaseService.ts`)

The `categorizations` table has `PRIMARY KEY (file_path, file_hash)` and
is written with `INSERT OR REPLACE`; it is modeled as an association list
from `(file_path, file_hash)` to `(category, subcategory)`. -/

/-- The `categorizations` table. -/
abbrev CacheStore := List ((String × String) × (String × Option String))

/-- Model of `SQLiteDatabaseService.getCachedCategorization` (lines 465-491): a
falsy (`empty`) hash is an immediate miss; otherwise look the key up, and
rebuild the `CategorizedFile`, attaching the subcategory only when the
stored column is truthy. -/
def getCachedCategorization (db : CacheStore) (filePath hash : String) :
    Option CategorizedFile :=
  if hash = "" then none
  else
    match List.lookup (filePath, hash) db with
    | none => none
    | some (category, subcategory) =>
      some { path := filePath, hash := some hash, category := category,
             subcategory := match subcategory with
                            | some sub => if sub = "" then none else some sub
                            | none => none }

/-- Model of `SQLiteDatabaseService.setCachedCategorization` (lines 493-505): a
falsy (absent or empty) hash makes the call return without touching the
table; otherwise `INSERT OR REPLACE` on the primary key. -/
def setCachedCategorization (db : CacheStore) (file : CategorizedFile) : CacheStore :=
  match file.hash with
  | none => db
  | some h =>
    if h = "" then db
    else ((file.path, h), (file.category, file.subcategory)) ::
      db.filter (fun e => e.1 ≠ (file.path, h))

/-! ## CategorizationService (`CategorizationService.ts`) -/

/-- The `CategorizationError.reason` union from `errors.ts`. -/
inductive ErrorReason where
  | network
  | invalid_file
  | api_limit
  | auth
  | api_error
  | unknown
deriving DecidableEq, Repr

/-- Model of `CategorizationService.classifyError` (lines 254-309) restricted to the
`error instanceof Error` branch: lowercase the message and classify it by
substring, in the source's order (database → network → rate limit → auth →
server error → unknown). -/
def classifyError (message : String) : ErrorReason :=
  let m := strLower message
  if strContains m "no such column" || strContains m "sqlite" || strContains m "database" then
    .unknown
  else if strContains m "network" || strContains m "timeout" || strContains m "fetch failed" ||
      strContains m "econnrefused" || strContains m "enotfound" || strContains m "etimedout" then
    .network
  else if strContains m "rate limit" || strContains m "quota" || strContains m "429" then
    .api_limit
  else if strContains m "unauthorized" || strContains m "invalid api key" ||
      strContains m "403" || strContains m "401" then
    .auth
  else if strContains m "api error" || strContains m "500" || strContains m "502" ||
      strContains m "503" then
    .api_error
  else
    .unknown

/-- What one attempt of the `categorizeSingleFileWithRetry` loop body
observes: either a categorized file (from the cache or the LLM client) or
a thrown error, identified by its message. -/
inductive AttemptOutcome where
  | ok (file : CategorizedFile)
  | fail (message : String)
deriving DecidableEq, Repr

/-- What a full run of `categorizeSingleFileWithRetry` did: the returned
value (`null` on failure), the backoff delays awaited between attempts, and
how many attempts were consumed. -/
structure RetryTrace where
  result : Option CategorizedFile
  delays : List Nat
  attemptsUsed : Nat
deriving DecidableEq, Repr

/-- The `for (let attempt = 1; attempt <= retries; attempt++)` loop of
`CategorizationService.categorizeSingleFileWithRetry` (lines 200-252),
entered at attempt number `attempt`, with the attempt bodies abstracted
into the outcome trace `attemptResult`: a success returns immediately; a
failure classified *network* with `attempt < retries` awaits
`RETRY.BASE_DELAY_MS * attempt` and continues; any other failure returns
`null` at once. -/
def retryAux (attemptResult : Nat → AttemptOutcome) (retries : Nat) :
    Nat → Nat → RetryTrace
  | 0, _ => { result := none, delays := [], attemptsUsed := 0 }
  | fuel + 1, attempt =>
    match attemptResult attempt with
    | .ok f => { result := some f, delays := [], attemptsUsed := 1 }
    | .fail msg =>
      if classifyError msg = .network ∧ attempt < retries then
        let rest := retryAux attemptResult retries fuel (attempt + 1)
        { result := rest.result,
          delays := RETRY_BASE_DELAY_MS * attempt :: rest.delays,
          attemptsUsed := rest.attemptsUsed + 1 }
      else { result := none, delays := [], attemptsUsed := 1 }

/-- The retry loop entered at attempt number `attempt` (the fuel value
`retries + 1 - attempt` counts the remaining loop iterations structurally:
it is `0` exactly when the loop guard `attempt <= retries` already
fails). -/
def retryFrom (attemptResult : Nat → AttemptOutcome) (retries attempt : Nat) : RetryTrace :=
  retryAux attemptResult retries (retries + 1 - attempt) attempt

/-- Model of `CategorizationService.categorizeSingleFileWithRetry`: the loop started
at attempt 1. -/
def categorizeSingleFileWithRetry (attemptResult : Nat → AttemptOutcome)
    (retries : Nat := LIMITS_MAX_RETRIES) : RetryTrace :=
  retryFrom attemptResult retries 1

/-- Model of `CategorizationService.categorizeDirectory` (lines 179-198), per-item
work abstracted as `attemptResult`: every scanned file is run through
`categorizeSingleFileWithRetry` with ceiling `LIMITS.MAX_RETRIES`, the
non-`null` results are kept (in submission order, as `Promise.all`
preserves positions), and each `null` outcome is a failure surfaced on the
error output channel; the second component lists those failed files. -/
def categorizeDirectory (attemptResult : String → Nat → AttemptOutcome)
    (files : List String) : List CategorizedFile × List String :=
  let traces := files.map (fun f => (f, (retryFrom (attemptResult f) LIMITS_MAX_RETRIES 1).result))
  (traces.filterMap (fun t => t.2), (traces.filter (fun t => t.2.isNone)).map (fun t => t.1))

/-! ## PathValidator (`PathValidator.ts`)

Embedded with the platform flag (`os.platform() === 'win32'`) and the
current working directory as parameters.  String regime: POSIX paths (the
separator `path.sep` is `/`); the Windows-only branches are translated
as written but exercised with `isWindows = false`, matching the POSIX
deployment the spec's scenarios describe. -/

/-- Model of `WINDOWS_RESERVED_NAMES` from `PathValidator.ts`. -/
def WINDOWS_RESERVED_NAMES : List String :=
  ["CON", "PRN", "AUX", "NUL",
   "COM1", "COM2", "COM3", "COM4", "COM5", "COM6", "COM7", "COM8", "COM9",
   "LPT1", "LPT2", "LPT3", "LPT4", "LPT5", "LPT6", "LPT7", "LPT8", "LPT9"]

/-- Model of `WINDOWS_MAX_PATH` from `PathValidator.ts`. -/
def WINDOWS_MAX_PATH : Nat := 260

/-- Model of `MAX_FILENAME_LENGTH` from `PathValidator.ts`. -/
def MAX_FILENAME_LENGTH : Nat := 255

/-- The `/[\x24\x60|;&]/` shell-metacharacter class of
`sanitizeAndValidate` step 4: dollar, backquote (code 96), pipe,
semicolon, ampersand. -/
def isDangerousChar (c : Char) : Bool :=
  c = '$' || c.toNat = 96 || c = '|' || c = ';' || c = '&'

/-- Model of `PathValidator.validateUniversalFilename` (lines 134-149). -/
def validateUniversalFilename (filename : String) : Except String Unit :=
  if filename.data.contains '/' || filename.data.contains '\\' then
    .error ("Filename contains path separators: " ++ filename)
  else if filename.data.any (fun c => c.toNat ≤ 0x1F) then
    .error ("Filename contains control characters: " ++ filename)
  else if (strTrim filename).length = 0 then
    .error "Filename cannot be empty or whitespace-only"
  else
    .ok ()

/-- Model of `PathValidator.validateWindowsFilename` (lines 112-129). -/
def validateWindowsFilename (filename : String) : Except String Unit :=
  let baseNameWithoutExt := strUpper ((splitChar '.' filename).headD "")
  if WINDOWS_RESERVED_NAMES.contains baseNameWithoutExt then
    .error ("Filename uses Windows reserved name: " ++ filename)
  else if filename.data.any (fun c =>
      c = '<' || c = '>' || c = ':' || c = '"' || c = '|' || c = '?' || c = '*') then
    .error ("Filename contains Windows-invalid characters (<>:\"|?*): " ++ filename)
  else if strEndsWith filename " " || strEndsWith filename "." then
    .error ("Windows filenames cannot end with space or period: " ++ filename)
  else
    .ok ()

/-- Model of `PathValidator.validateFilename` (lines 94-107). -/
def validateFilename (isWindows : Bool) (filename : String) : Except String Unit :=
  if filename.length > MAX_FILENAME_LENGTH then
    .error ("Filename exceeds maximum length (255 characters): " ++ filename)
  else
    match (if isWindows then validateWindowsFilename filename else .ok ()) with
    | .error e => .error e
    | .ok _ => validateUniversalFilename filename

/-- The component loop of `PathValidator.validateOsSpecific` (lines 80-88):
validate every component, skipping a Windows drive letter. -/
def validateComponents (isWindows : Bool) : List String → Except String Unit
  | [] => .ok ()
  | comp :: rest =>
    if isWindows && comp.data.length = 2 && (comp.data.headD ' ').isAlpha &&
        comp.data.getLastD ' ' = ':' then
      validateComponents isWindows rest
    else
      match validateFilename isWindows comp with
      | .error e => .error e
      | .ok _ => validateComponents isWindows rest

/-- Model of `path.parse(p).base` (POSIX): the final segment of the path, empty for
the root. -/
def parseBase (p : String) : String := pathBasename p

/-- Model of `PathValidator.validateOsSpecific` (lines 65-89): validate the parsed
basename when non-empty, enforce `WINDOWS_MAX_PATH` on Windows, then
validate every non-empty `path.sep`-separated component. -/
def validateOsSpecific (isWindows : Bool) (resolvedPath : String) : Except String Unit :=
  let base := parseBase resolvedPath
  match (if base ≠ "" then validateFilename isWindows base else .ok ()) with
  | .error e => .error e
  | .ok _ =>
    if isWindows && resolvedPath.length > WINDOWS_MAX_PATH then
      .error "Path exceeds Windows MAX_PATH limit (260 characters)"
    else
      validateComponents isWindows ((splitSegs resolvedPath).filter (fun c => c.length > 0))

/-- Step 1 of `sanitizeAndValidate`: `userInput.replace(/\0/g, cleaned)`,
the null-byte strip. -/
def removeNullBytes (s : String) : String :=
  String.mk (s.data.filter (fun c => c.toNat ≠ 0))

/-- Step 3 of `sanitizeAndValidate`: the path-traversal test on the
cleaned input. -/
def hasTraversal (cleaned : String) : Bool :=
  strContains cleaned "/../" || strContains cleaned "\\..\\" ||
  strStartsWith cleaned "../" || strStartsWith cleaned "..\\" ||
  cleaned = ".." || strEndsWith cleaned "/.." || strEndsWith cleaned "\\.."

/-- Model of `PathValidator.sanitizeAndValidate` (`PathValidator.ts` lines 31-60):
strip null bytes, resolve to an absolute path, reject traversal sequences
and shell metacharacters on the cleaned input, run the OS-specific
validation on the resolved path, and return the resolved path. -/
def sanitizeAndValidate (isWindows : Bool) (cwd : String) (userInput : String) :
    Except String String :=
  let cleaned := removeNullBytes userInput
  let resolvedPath := pathResolve cwd cleaned
  if hasTraversal cleaned then
    .error "Path traversal sequences (\"../\") are not allowed."
  else if cleaned.data.any isDangerousChar then
    .error "Path contains dangerous shell characters."
  else
    match validateOsSpecific isWindows resolvedPath with
    | .error e => .error e
    | .ok _ => .ok resolvedPath

/-! ## Spec-side definitions and concrete witness inputs -/

/-- The filesystem effect of the reversal sequence, taken on its own: apply
the reverts one after the other in the given (already reversed) order,
keeping the previous state when one fails.  This is the spec's reading of
"replays the session's OperationRecords in strict reverse order"; the
theorems below show the code's loop produces exactly this state. -/
def applyReverts : List FileOperation → FS → FS
  | [], fs => fs
  | op :: rest, fs =>
    match revertOperation fs op with
    | .ok fs' => applyReverts rest fs'
    | .error _ => applyReverts rest fs

/-- The candidate name the rename loop builds at counter `k`:
`dir/baseName(k)ext`. -/
def candidateName (dir baseName ext : String) (k : Nat) : String :=
  pathJoinList [dir, baseName ++ "(" ++ toString k ++ ")" ++ ext]

/-- The candidate the rename loop would build at counter `k` for a given
intended destination. -/
def candidateOf (filePath : String) (k : Nat) : String :=
  candidateName (pathDirname filePath) (pathBasenameExt filePath (pathExtname filePath))
    (pathExtname filePath) k

/-- A well-formed path segment of the working directory: non-empty, not a
dot segment, free of separators, of legal length, free of control
characters and not whitespace-only — the conditions under which every
check of the POSIX `PathValidator` accepts it. -/
def validSegB (s : String) : Bool :=
  s ≠ "" && s ≠ "." && s ≠ ".." && !(s.data.contains '/') && !(s.data.contains '\\') &&
  s.length ≤ 255 && s.data.all (fun c => 0x1F < c.toNat) && (strTrim s).length ≠ 0

/-- A concrete session for the C2 witness: a created directory and two
moves, rolled back over a filesystem where one of the two moved files has
meanwhile disappeared, so one revert fails and the other records are still
attempted. -/
def w2Session : OperationHistory :=
  { sessionId := "s1",
    operations :=
      [{ type := .create_directory, directoryPath := some "/base/Docs" },
       { type := .move, sourcePath := some "/base/a.txt",
         destinationPath := some "/base/Docs/a.txt" },
       { type := .move, sourcePath := some "/base/b.txt",
         destinationPath := some "/base/Docs/b.txt" }] }

/-- The C2 witness filesystem: `/base/Docs/b.txt` is missing, so its move
revert fails with `ENOENT`. -/
def w2FS : FS := { files := ["/base/Docs/a.txt"], dirs := ["/base", "/base/Docs"] }

/-- The journal state after the first C3 witness rollback. -/
def w2After : Sessions := [("s1", { w2Session with rolledBack := true })]

/-- The filesystem state after the first C3 witness rollback. -/
def w2FSAfter : FS := { files := ["/base/a.txt"], dirs := ["/base"] }

/-- The result of the first C3 witness rollback. -/
def w2Result : RollbackResult :=
  { success := false, operationsReverted := 2,
    errors := [({ type := .move, sourcePath := some "/base/b.txt",
                  destinationPath := some "/base/Docs/b.txt" },
                "ENOENT: no such file or directory, rename /base/Docs/b.txt")] }

/-- The C5 counterexample filesystem: every path exists except
`Documents/a(1000).txt`. -/
def c5FileExists : String → Bool := fun s => s ≠ "Documents/a(1000).txt"

/-- The C5 witness filesystem: `Documents/a.txt` and `Documents/a(1).txt`
exist, `Documents/a(2).txt` is free. -/
def w5FileExists : String → Bool :=
  fun s => s = "Documents/a.txt" || s = "Documents/a(1).txt"

/-- Witness oracle for C6: three concrete files where the middle one
always fails with an authentication error and the other two succeed on
the first attempt. -/
def w6Attempt : String → Nat → AttemptOutcome := fun f _ =>
  if f = "/d/b.txt" then .fail "401 unauthorized"
  else .ok { path := f, category := "Documents" }

/-! ## Shared journal lemmas -/

/-- Unfolding lemma for `markRolledBack` on a cons cell. -/
theorem markRolledBack_cons (k : String) (v : OperationHistory) (rest : Sessions)
    (sid : String) :
    markRolledBack ((k, v) :: rest) sid =
    (if k = sid then (k, { v with rolledBack := true }) else (k, v)) ::
      markRolledBack rest sid := rfl

/-- Unfolding lemma for `List.lookup` on a cons cell. -/
theorem lookup_cons (a k : String) (v : OperationHistory) (rest : Sessions) :
    List.lookup a ((k, v) :: rest) = if a = k then some v else List.lookup a rest := by
  by_cases h : a = k
  · simp [List.lookup, h]
  · have : (a == k) = false := by simp [h]
    simp [List.lookup, this, h]

/-- Looking a session up after `markRolledBack` on its id yields the same
session with the `rolledBack` flag set. -/
theorem lookup_markRolledBack (st : Sessions) (sid : String) (s : OperationHistory)
    (h : List.lookup sid st = some s) :
    List.lookup sid (markRolledBack st sid) = some { s with rolledBack := true } := by
  induction st with
  | nil => simp [List.lookup] at h
  | cons hd tl ih =>
    obtain ⟨k, v⟩ := hd
    by_cases hk : k = sid
    · subst hk
      rw [lookup_cons, if_pos rfl] at h
      injection h with h
      subst h
      rw [markRolledBack_cons, if_pos rfl, lookup_cons, if_pos rfl]
    · have hsk : sid ≠ k := fun e => hk e.symm
      rw [lookup_cons, if_neg hsk] at h
      rw [markRolledBack_cons, if_neg hk, lookup_cons, if_neg hsk]
      exact ih h

/-- The revert loop's filesystem component is the sequential reverse-order
application `applyReverts`. -/
theorem runReverts_fs (ops : List FileOperation) (fs : FS) (acc : RollbackResult) :
    (runReverts ops fs acc).1 = applyReverts ops fs := by
  induction ops generalizing fs acc with
  | nil => rfl
  | cons op rest ih =>
    simp only [runReverts, applyReverts]
    cases revertOperation fs op with
    | ok fs' => exact ih fs' _
    | error e => exact ih fs _

/-- Every record is attempted: successes and failures add up to the length
of the processed list. -/
theorem runReverts_count (ops : List FileOperation) (fs : FS) (acc : RollbackResult) :
    (runReverts ops fs acc).2.operationsReverted + (runReverts ops fs acc).2.errors.length =
      acc.operationsReverted + acc.errors.length + ops.length := by
  induction ops generalizing fs acc with
  | nil => simp [runReverts]
  | cons op rest ih =>
    simp only [runReverts]
    cases revertOperation fs op with
    | ok fs' =>
      rw [ih fs' _]
      simp
      omega
    | error e =>
      rw [ih fs _]
      simp
      omega

/-- The failures collected by the loop extend the accumulator by an
in-order selection of the processed records. -/
theorem runReverts_errors (ops : List FileOperation) (fs : FS) (acc : RollbackResult) :
    ∃ l, (runReverts ops fs acc).2.errors.map Prod.fst =
        acc.errors.map Prod.fst ++ l ∧ l.Sublist ops := by
  induction ops generalizing fs acc with
  | nil => exact ⟨[], by simp [runReverts], List.Sublist.refl []⟩
  | cons op rest ih =>
    simp only [runReverts]
    cases revertOperation fs op with
    | ok fs' =>
      obtain ⟨l, hl, hsub⟩ := ih fs' { acc with operationsReverted := acc.operationsReverted + 1 }
      exact ⟨l, hl, hsub.cons op⟩
    | error e =>
      obtain ⟨l, hl, hsub⟩ :=
        ih fs { acc with success := false, errors := acc.errors ++ [(op, e)] }
      refine ⟨op :: l, ?_, hsub.cons₂ op⟩
      rw [hl]
      simp

/-- A failed accumulator never recovers. -/
theorem runReverts_fail_sticky (ops : List FileOperation) (fs : FS) (acc : RollbackResult)
    (h : acc.success = false) : (runReverts ops fs acc).2.success = false := by
  induction ops generalizing fs acc with
  | nil => exact h
  | cons op rest ih =>
    simp only [runReverts]
    cases revertOperation fs op with
    | ok fs' => exact ih fs' _ h
    | error e => exact ih fs _ rfl

/-- The collected failures only ever grow. -/
theorem runReverts_errors_grow (ops : List FileOperation) (fs : FS) (acc : RollbackResult) :
    ∃ l, (runReverts ops fs acc).2.errors = acc.errors ++ l := by
  induction ops generalizing fs acc with
  | nil => exact ⟨[], by simp [runReverts]⟩
  | cons op rest ih =>
    simp only [runReverts]
    cases revertOperation fs op with
    | ok fs' => exact ih fs' _
    | error e =>
      obtain ⟨l, hl⟩ := ih fs { acc with success := false, errors := acc.errors ++ [(op, e)] }
      exact ⟨(op, e) :: l, by rw [hl]; simp⟩

/-- Starting from a clean accumulator, the loop reports success exactly
when no per-operation failure was collected. -/
theorem runReverts_success_iff (ops : List FileOperation) (fs : FS) (acc : RollbackResult)
    (h : acc.success = true) :
    ((runReverts ops fs acc).2.success = true ↔ (runReverts ops fs acc).2.errors = acc.errors) := by
  induction ops generalizing fs acc with
  | nil => simp [runReverts, h]
  | cons op rest ih =>
    simp only [runReverts]
    cases revertOperation fs op with
    | ok fs' => exact ih fs' _ h
    | error e =>
      constructor
      · intro hs
        have := runReverts_fail_sticky rest fs
          { acc with success := false, errors := acc.errors ++ [(op, e)] } rfl
        rw [hs] at this
        cases this
      · intro he
        exfalso
        obtain ⟨l, hl⟩ := runReverts_errors_grow rest fs
          { acc with success := false, errors := acc.errors ++ [(op, e)] }
        rw [he] at hl
        have hlen := congrArg List.length hl
        simp at hlen

/-! ## Claim C1: the Atomic Mover's containment check -/

/-- C1 fails on the code: the security check is a plain string-prefix test
(`resolvedCategoryPath.startsWith(resolvedBaseDir)`), so a category of
`../baseEvil` under base directory `/tmp/base` resolves to `/tmp/baseEvil`
— outside the base directory — yet passes the check because the string
`/tmp/baseEvil` starts with the string `/tmp/base`.  The call succeeds,
creates the sibling directory, moves the file there and journals both
records; no `SecurityViolation` is raised even though the destination does
not stay within the base directory. -/
theorem claim_C1_prefix_check_bypassed :
    organizeFile (fun _ => false) "/" "/tmp/base"
        { path := "/tmp/base/x.txt", category := "../baseEvil" }
        ConflictStrategy.rename false true =
      Except.ok
        ({ success := true, sourcePath := "/tmp/base/x.txt",
           destinationPath := some "/tmp/baseEvil/x.txt" },
         [FsAction.mkdirRecursive "/tmp/baseEvil",
          FsAction.renameFile "/tmp/base/x.txt" "/tmp/baseEvil/x.txt"],
         [{ type := OpType.create_directory, directoryPath := some "/tmp/baseEvil" },
          { type := OpType.move, sourcePath := some "/tmp/base/x.txt",
            destinationPath := some "/tmp/baseEvil/x.txt" }]) ∧
    pathResolve "/" (pathJoinList ["/tmp/base", "../baseEvil"]) = "/tmp/baseEvil" ∧
    specWithinBase "/tmp/base" "/tmp/baseEvil" = false ∧
    specWithinBase "/tmp/base" "/tmp/baseEvil/x.txt" = false := by
  refine ⟨by decide, by decide, by decide, by decide⟩

/-! ## Claim C4: only network failures retry, with linear backoff -/

/-- C4: under the default attempt ceiling `LIMITS.MAX_RETRIES = 3`, a
failure whose classification is not *network* ends the item immediately
(one attempt consumed, no backoff, `null` result), at whatever attempt it
occurs; and when every attempt fails with a *network*-classified error the
item is attempted exactly 3 times, awaiting `BASE_DELAY_MS * 1` then
`BASE_DELAY_MS * 2` — strictly increasing delays, each below
`RETRY.MAX_DELAY_MS` — before returning `null`. -/
theorem claim_C4_retry_policy (oracle : Nat → AttemptOutcome) :
    (∀ (attempt : Nat) (msg : String), 1 ≤ attempt → attempt ≤ LIMITS_MAX_RETRIES →
      oracle attempt = .fail msg → classifyError msg ≠ .network →
      retryFrom oracle LIMITS_MAX_RETRIES attempt =
        { result := none, delays := [], attemptsUsed := 1 }) ∧
    ((∀ k, 1 ≤ k → k ≤ LIMITS_MAX_RETRIES →
        ∃ m, oracle k = .fail m ∧ classifyError m = .network) →
      categorizeSingleFileWithRetry oracle LIMITS_MAX_RETRIES =
        { result := none,
          delays := [RETRY_BASE_DELAY_MS * 1, RETRY_BASE_DELAY_MS * 2],
          attemptsUsed := LIMITS_MAX_RETRIES } ∧
      List.Chain' (· < ·) [RETRY_BASE_DELAY_MS * 1, RETRY_BASE_DELAY_MS * 2] ∧
      ∀ d ∈ [RETRY_BASE_DELAY_MS * 1, RETRY_BASE_DELAY_MS * 2], d ≤ RETRY_MAX_DELAY_MS) := by
  constructor
  · intro attempt msg h1 h3 horacle hclass
    have hfuel : LIMITS_MAX_RETRIES + 1 - attempt = (LIMITS_MAX_RETRIES - attempt) + 1 := by
      simp only [LIMITS_MAX_RETRIES] at h3 ⊢
      omega
    rw [retryFrom, hfuel]
    simp only [retryAux, horacle]
    rw [if_neg]
    rintro ⟨hc, -⟩
    exact hclass hc
  · intro hnet
    obtain ⟨m1, ho1, hc1⟩ := hnet 1 (by omega) (by simp [LIMITS_MAX_RETRIES])
    obtain ⟨m2, ho2, hc2⟩ := hnet 2 (by omega) (by simp [LIMITS_MAX_RETRIES])
    obtain ⟨m3, ho3, hc3⟩ := hnet 3 (by omega) (by simp [LIMITS_MAX_RETRIES])
    refine ⟨?_, by simp [RETRY_BASE_DELAY_MS], by simp [RETRY_BASE_DELAY_MS, RETRY_MAX_DELAY_MS]⟩
    show retryAux oracle 3 3 1 = _
    simp [retryAux, ho1, hc1, ho2, hc2, ho3, hc3, LIMITS_MAX_RETRIES]

/-- Witness for C4: a quota-classified failure fails at once with no
backoff, and a run of timeout failures is retried to the ceiling with
delays 1000ms then 2000ms. -/
theorem claim_C4_witness :
    retryFrom (fun _ => .fail "quota exceeded") LIMITS_MAX_RETRIES 1 =
      { result := none, delays := [], attemptsUsed := 1 } ∧
    categorizeSingleFileWithRetry (fun _ => .fail "timeout") LIMITS_MAX_RETRIES =
      { result := none, delays := [1000, 2000], attemptsUsed := 3 } := by
  constructor
  · exact (claim_C4_retry_policy _).1 1 "quota exceeded" (by omega)
      (by simp [LIMITS_MAX_RETRIES]) rfl (by decide)
  · have h := ((claim_C4_retry_policy (fun _ => .fail "timeout")).2
      (fun k _ _ => ⟨"timeout", rfl, by decide⟩)).1
    simpa [RETRY_BASE_DELAY_MS, LIMITS_MAX_RETRIES] using h

/-! ## Claim C2: rollback replays records in reverse, collecting failures -/

/-- C2: on a known, not-yet-rolled-back session, `rollback` succeeds with a
result produced by attempting every record of the session in strict
reverse order: the filesystem ends in the state of the sequential
reverse-order application, successes and per-operation failures add up to
the record count (so a failure never stops the remaining records), the
collected failures are an in-order selection of the reversed record list,
`success` is reported exactly when no failure was collected, and the
session is marked rolled back.  The last two conjuncts pin the per-record
semantics: a *move* record with its two recorded paths is undone by
`fs.rename(destination, source)`, and a *create-directory* record never
fails (the removal failure is swallowed). -/
theorem claim_C2_rollback_reverse (st : Sessions) (fs : FS) (sid : String)
    (s : OperationHistory) (hs : List.lookup sid st = some s)
    (hrb : s.rolledBack = false) :
    ∃ res : RollbackResult,
      rollback st fs sid =
        (.ok res, markRolledBack st sid, applyReverts s.operations.reverse fs) ∧
      res.operationsReverted + res.errors.length = s.operations.length ∧
      (res.errors.map Prod.fst).Sublist s.operations.reverse ∧
      (res.success = true ↔ res.errors = []) ∧
      List.lookup sid (markRolledBack st sid) = some { s with rolledBack := true } ∧
      (∀ (fs₀ : FS) (src dst : String) (ts : Nat), src ≠ "" → dst ≠ "" →
        revertOperation fs₀
          { type := .move, sourcePath := some src, destinationPath := some dst,
            timestamp := ts } = fsRename fs₀ dst src) ∧
      (∀ (fs₀ : FS) (d : String) (ts : Nat), d ≠ "" →
        (revertOperation fs₀
          { type := .create_directory, directoryPath := some d, timestamp := ts }).isOk = true) := by
  classical
  set init : RollbackResult := { success := true, operationsReverted := 0, errors := [] } with hinit
  refine ⟨(runReverts s.operations.reverse fs init).2, ?_, ?_, ?_, ?_, ?_, ?_, ?_⟩
  · simp only [rollback, hs, hrb]
    rw [if_neg Bool.false_ne_true, runReverts_fs]
  · have := runReverts_count s.operations.reverse fs init
    simpa [hinit] using this
  · obtain ⟨l, hl, hsub⟩ := runReverts_errors s.operations.reverse fs init
    have : (runReverts s.operations.reverse fs init).2.errors.map Prod.fst = l := by
      simpa [hinit] using hl
    rw [this]
    exact hsub
  · have := runReverts_success_iff s.operations.reverse fs init (by simp [hinit])
    simpa [hinit] using this
  · exact lookup_markRolledBack st sid s hs
  · intro fs₀ src dst ts hsrc hdst
    simp [revertOperation, hsrc, hdst]
  · intro fs₀ d ts hd
    simp only [revertOperation, if_neg (by simpa using hd)]
    cases fsRmdir fs₀ d with
    | ok fs' => rfl
    | error e => rfl

/-- Witness for C2 at the concrete session: the hypotheses hold and the
rollback result reports one collected failure and two attempted reverts
(one revert failure did not stop the others). -/
theorem claim_C2_witness :
    List.lookup "s1" [("s1", w2Session)] = some w2Session ∧
    w2Session.rolledBack = false ∧
    ∃ res : RollbackResult,
      rollback [("s1", w2Session)] w2FS "s1" =
        (.ok res, markRolledBack [("s1", w2Session)] "s1",
         applyReverts w2Session.operations.reverse w2FS) ∧
      res.operationsReverted + res.errors.length = w2Session.operations.length := by
  refine ⟨rfl, rfl, ?_⟩
  obtain ⟨res, h1, h2, -⟩ :=
    claim_C2_rollback_reverse [("s1", w2Session)] w2FS "s1" w2Session rfl rfl
  exact ⟨res, h1, h2⟩

/-! ## Claim C3: rollback fails on unknown or already-rolled-back sessions -/

/-- C3: `rollback` on an unknown session id fails with `Session not found`
and leaves journal and filesystem untouched; on a session already flagged
rolled back it fails with `Session already rolled back`, also untouched;
and after any successful rollback, a second `rollback` of the same id
fails with `Session already rolled back` and changes neither the journal
nor the filesystem. -/
theorem claim_C3_rollback_twice :
    (∀ (st : Sessions) (fs : FS) (sid : String),
      List.lookup sid st = none →
      rollback st fs sid = (.error ("Session not found: " ++ sid), st, fs)) ∧
    (∀ (st : Sessions) (fs : FS) (sid : String) (s : OperationHistory),
      List.lookup sid st = some s → s.rolledBack = true →
      rollback st fs sid = (.error ("Session already rolled back: " ++ sid), st, fs)) ∧
    (∀ (st st' : Sessions) (fs fs' : FS) (sid : String) (res : RollbackResult),
      rollback st fs sid = (.ok res, st', fs') →
      rollback st' fs' sid = (.error ("Session already rolled back: " ++ sid), st', fs')) := by
  refine ⟨?_, ?_, ?_⟩
  · intro st fs sid h
    simp [rollback, h]
  · intro st fs sid s hs hrb
    simp [rollback, hs, hrb]
  · intro st st' fs fs' sid res h
    cases hs : List.lookup sid st with
    | none => simp [rollback, hs] at h
    | some s =>
      by_cases hrb : s.rolledBack
      · simp [rollback, hs, hrb] at h
      · have hrb' : s.rolledBack = false := by
          cases hb : s.rolledBack
          · rfl
          · exact absurd hb hrb
        have hre : rollback st fs sid =
            (.ok (runReverts s.operations.reverse fs
                    { success := true, operationsReverted := 0, errors := [] }).2,
             markRolledBack st sid,
             (runReverts s.operations.reverse fs
                    { success := true, operationsReverted := 0, errors := [] }).1) := by
          simp only [rollback, hs, hrb']
          rw [if_neg Bool.false_ne_true]
        rw [hre] at h
        have hst' : st' = markRolledBack st sid :=
          (congrArg (fun t => t.2.1) h).symm
        have hlk : List.lookup sid st' = some { s with rolledBack := true } := by
          rw [hst']
          exact lookup_markRolledBack st sid s hs
        simp [rollback, hlk]

/-- Witness for C3: a rollback of an unknown id fails, and the second of
two rollbacks of the same concrete session fails with
`Session already rolled back` leaving the post-first-call state alone. -/
theorem claim_C3_witness :
    rollback [] w2FS "ghost" = (.error "Session not found: ghost", [], w2FS) ∧
    rollback [("s1", w2Session)] w2FS "s1" = (.ok w2Result, w2After, w2FSAfter) ∧
    rollback w2After w2FSAfter "s1" =
      (.error "Session already rolled back: s1", w2After, w2FSAfter) := by
  refine ⟨claim_C3_rollback_twice.1 [] w2FS "ghost" rfl, ?first, ?_⟩
  case first => decide
  · exact claim_C3_rollback_twice.2.2 [("s1", w2Session)] w2After w2FS w2FSAfter
      "s1" w2Result (by decide)

/-! ## String and path round-trip lemmas (for the Path Guard claims) -/

/-- Structure eta: a string is the string of its characters. -/
theorem mk_data (s : String) : String.mk s.data = s := rfl

/-- Splitting walks through a separator-free prefix accumulating it. -/
theorem splitCharsAux_append_no_sep (sep : Char) (xs : List Char) :
    ∀ (cur ys : List Char), (∀ c ∈ xs, c ≠ sep) →
      splitCharsAux sep cur (xs ++ ys) = splitCharsAux sep (xs.reverse ++ cur) ys := by
  induction xs with
  | nil => intro cur ys _; simp
  | cons c rest ih =>
    intro cur ys h
    have hc : c ≠ sep := h c (by simp)
    simp only [List.cons_append, splitCharsAux, if_neg hc, List.append_eq]
    rw [ih (c :: cur) ys (fun d hd => h d (by simp [hd]))]
    congr 1
    simp

/-- Splitting `joinSep "/"` of slash-free segments recovers the segments
(one empty field when there are none). -/
theorem splitChar_joinSep (segs : List String) (h : ∀ s ∈ segs, '/' ∉ s.data) :
    splitChar '/' (joinSep "/" segs) = if segs = [] then [""] else segs := by
  induction segs with
  | nil => rfl
  | cons p rest ih =>
    rw [if_neg (by simp)]
    cases rest with
    | nil =>
      show (splitCharsAux '/' [] p.data).map String.mk = [p]
      have hx := splitCharsAux_append_no_sep '/' p.data [] []
        (fun c hc he => (h p (by simp)) (he ▸ hc))
      rw [List.append_nil] at hx
      rw [hx]
      simp [splitCharsAux, mk_data]
    | cons q rest' =>
      have hdata : (joinSep "/" (p :: q :: rest')).data =
          p.data ++ ('/' :: (joinSep "/" (q :: rest')).data) := by
        show (p ++ "/" ++ joinSep "/" (q :: rest')).data = _
        rw [String.data_append, String.data_append]
        simp
      show (splitCharsAux '/' [] (joinSep "/" (p :: q :: rest')).data).map String.mk =
        p :: q :: rest'
      rw [hdata, splitCharsAux_append_no_sep '/' p.data []
        ('/' :: (joinSep "/" (q :: rest')).data)
        (fun c hc he => (h p (by simp)) (he ▸ hc))]
      have hstep : splitCharsAux '/' (p.data.reverse ++ [])
          ('/' :: (joinSep "/" (q :: rest')).data) =
          p.data :: splitCharsAux '/' [] (joinSep "/" (q :: rest')).data := by
        simp [splitCharsAux]
      rw [hstep]
      simp only [List.map_cons, mk_data]
      congr 1
      have hrec := ih (fun s hs => h s (by simp [hs]))
      rw [if_neg (by simp)] at hrec
      exact hrec

/-- Splitting a rendered absolute path yields a leading empty field and
the segments. -/
theorem splitSegs_renderAbs (segs : List String) (h : ∀ s ∈ segs, '/' ∉ s.data) :
    splitSegs (renderAbs segs) = "" :: (if segs = [] then [""] else segs) := by
  show (splitCharsAux '/' [] ("/" ++ joinSep "/" segs).data).map String.mk = _
  rw [String.data_append]
  rw [show ("/".data ++ (joinSep "/" segs).data) =
    '/' :: (joinSep "/" segs).data from rfl]
  rw [show splitCharsAux '/' [] ('/' :: (joinSep "/" segs).data) =
      [] :: splitCharsAux '/' [] (joinSep "/" segs).data from by
    simp [splitCharsAux]]
  simp only [List.map_cons]
  exact congrArg (String.mk [] :: ·) (splitChar_joinSep segs h)

/-- Normalization of well-formed segments followed by a `"."` (what
`path.resolve(cwd, ".")` walks) is the identity. -/
theorem normLoop_valid_append_dot (segs : List String) :
    ∀ acc : List String, (∀ s ∈ segs, s ≠ "" ∧ s ≠ "." ∧ s ≠ "..") →
      normLoop true acc (segs ++ ["."]) = acc.reverse ++ segs := by
  induction segs with
  | nil => intro acc _; simp [normLoop]
  | cons s rest ih =>
    intro acc h
    obtain ⟨h1, h2, h3⟩ := h s (by simp)
    simp only [List.cons_append, normLoop, if_neg (not_or.mpr ⟨h1, h2⟩), if_neg h3,
      List.append_eq]
    rw [ih (s :: acc) (fun t ht => h t (by simp [ht]))]
    simp

/-- Resolving `"."` against an already normalized absolute working
directory returns that directory unchanged. -/
theorem pathResolve_dot (segs : List String)
    (h : ∀ s ∈ segs, s ≠ "" ∧ s ≠ "." ∧ s ≠ ".." ∧ '/' ∉ s.data) :
    pathResolve (renderAbs segs) "." = renderAbs segs := by
  rw [pathResolve, if_neg (by decide)]
  rw [splitSegs_renderAbs segs (fun s hs => (h s hs).2.2.2)]
  rw [show splitSegs "." = ["."] from rfl]
  by_cases hseg : segs = []
  · subst hseg
    rfl
  · rw [if_neg hseg]
    rw [show ("" :: segs) ++ ["."] = "" :: (segs ++ ["."]) from rfl]
    rw [show normLoop true [] ("" :: (segs ++ ["."])) =
        normLoop true [] (segs ++ ["."]) from by simp [normLoop]]
    rw [normLoop_valid_append_dot segs [] (fun s hs => ⟨(h s hs).1, (h s hs).2.1, (h s hs).2.2.1⟩)]
    rfl

/-! ## Path Guard acceptance lemmas -/

/-- A string is empty exactly when its character list is. -/
theorem eq_empty_iff_data (s : String) : s = "" ↔ s.data = [] := by
  constructor
  · intro h
    subst h
    rfl
  · intro h
    rw [← mk_data s, h]

/-- Unpacked reading of `validSegB`. -/
theorem validSegB_spec (s : String) (h : validSegB s = true) :
    s ≠ "" ∧ s ≠ "." ∧ s ≠ ".." ∧ '/' ∉ s.data ∧ '\\' ∉ s.data ∧
    s.length ≤ 255 ∧ (∀ c ∈ s.data, 0x1F < c.toNat) ∧ (strTrim s).length ≠ 0 := by
  simp only [validSegB, Bool.and_eq_true, decide_eq_true_eq, Bool.not_eq_true',
    List.contains_eq_any_beq, List.any_eq_false, beq_iff_eq, List.all_eq_true] at h
  obtain ⟨⟨⟨⟨⟨⟨⟨h1, h2⟩, h3⟩, h4⟩, h5⟩, h6⟩, h7⟩, h8⟩ := h
  refine ⟨h1, h2, h3, ?_, ?_, h6, ?_, h8⟩
  · intro hm
    exact absurd rfl (h4 '/' hm)
  · intro hm
    exact absurd rfl (h5 '\\' hm)
  · intro c hc
    exact h7 c hc

/-- A valid segment passes `validateFilename` in the POSIX regime. -/
theorem validateFilename_of_valid (s : String) (h : validSegB s = true) :
    validateFilename false s = .ok () := by
  obtain ⟨hne, -, -, hslash, hback, hlen, hctrl, htrim⟩ := validSegB_spec s h
  rw [validateFilename, if_neg (by simp only [MAX_FILENAME_LENGTH]; omega)]
  show validateUniversalFilename s = .ok ()
  rw [validateUniversalFilename, if_neg (by simp [hslash, hback]),
    if_neg ?ctrl, if_neg (by simpa using htrim)]
  case ctrl =>
    simp only [Bool.not_eq_true, List.any_eq_false, decide_eq_false_iff_not]
    intro c hc
    have := hctrl c hc
    omega

/-- Valid segments pass the component loop in the POSIX regime. -/
theorem validateComponents_of_valid :
    ∀ l : List String, (∀ s ∈ l, validSegB s = true) →
      validateComponents false l = .ok () := by
  intro l
  induction l with
  | nil => intro _; rfl
  | cons s rest ih =>
    intro h
    simp only [validateComponents, Bool.false_and, Bool.and_eq_true]
    rw [if_neg (by simp)]
    rw [validateFilename_of_valid s (h s (by simp))]
    exact ih (fun t ht => h t (by simp [ht]))

/-- A valid segment is non-empty as a character count. -/
theorem length_pos_of_valid (s : String) (h : validSegB s = true) : 0 < s.length := by
  have hne := (validSegB_spec s h).1
  rcases Nat.eq_zero_or_pos s.length with hz | hp
  · exfalso
    apply hne
    rw [eq_empty_iff_data]
    exact List.length_eq_zero.mp hz
  · exact hp

/-- Valid segments survive the non-empty filters of `pathBasename` and of
the component loop unchanged. -/
theorem filter_ne_empty_of_valid (segs : List String)
    (h : ∀ s ∈ segs, validSegB s = true) :
    segs.filter (fun c => c ≠ "") = segs :=
  List.filter_eq_self.mpr (fun s hs => by simp [(validSegB_spec s (h s hs)).1])

/-- Valid segments survive the positive-length filter of the component
loop unchanged. -/
theorem filter_length_pos_of_valid (segs : List String)
    (h : ∀ s ∈ segs, validSegB s = true) :
    segs.filter (fun c => c.length > 0) = segs :=
  List.filter_eq_self.mpr (fun s hs => by simp [length_pos_of_valid s (h s hs)])

/-- The resolved working directory passes the whole OS-specific
validation in the POSIX regime. -/
theorem validateOsSpecific_renderAbs (segs : List String)
    (h : ∀ s ∈ segs, validSegB s = true) :
    validateOsSpecific false (renderAbs segs) = .ok () := by
  have hslash : ∀ s ∈ segs, '/' ∉ s.data := fun s hs => (validSegB_spec s (h s hs)).2.2.2.1
  by_cases hseg : segs = []
  · subst hseg
    decide
  · have hsplit := splitSegs_renderAbs segs hslash
    rw [if_neg hseg] at hsplit
    have hbase : parseBase (renderAbs segs) = (segs.reverse).headD "" := by
      show pathBasename (renderAbs segs) = _
      rw [pathBasename, hsplit]
      rw [show ("" :: segs).filter (fun c => c ≠ "") = segs.filter (fun c => c ≠ "") from by
        simp]
      rw [filter_ne_empty_of_valid segs h]
      cases hrev : segs.reverse with
      | nil => exact absurd (by simpa using congrArg List.reverse hrev) hseg
      | cons b tl => rfl
    have hbmem : (segs.reverse).headD "" ∈ segs := by
      cases hrev : segs.reverse with
      | nil => exact absurd (by simpa using congrArg List.reverse hrev) hseg
      | cons b tl =>
        have : b ∈ segs.reverse := by rw [hrev]; simp
        simpa using this
    rw [validateOsSpecific, hbase]
    rw [if_pos (by
      intro he
      exact (validSegB_spec _ (h _ hbmem)).1 he)]
    rw [validateFilename_of_valid _ (h _ hbmem)]
    show (if false = true then _ else _) = _
    rw [if_neg (by simp)]
    rw [hsplit]
    rw [show ("" :: segs).filter (fun c => c.length > 0) =
        segs.filter (fun c => c.length > 0) from by simp]
    rw [filter_length_pos_of_valid segs h]
    exact validateComponents_of_valid segs h

/-! ## Claim C8: Path Guard rejects traversal inputs and accepts `"."` -/

/-- A traversal-flagged input makes the Path Guard fail before the
resolved path is ever consulted. -/
theorem sanitize_traversal_error (isWindows : Bool) (cwd userInput : String)
    (h : hasTraversal (removeNullBytes userInput) = true) :
    sanitizeAndValidate isWindows cwd userInput =
      .error "Path traversal sequences (\"../\") are not allowed." := by
  simp only [sanitizeAndValidate, h, if_true]

/-- An input passing the traversal and metacharacter screens flows into
the OS-specific validation of its resolved path. -/
theorem sanitize_clean_shape (isWindows : Bool) (cwd userInput : String)
    (h1 : hasTraversal (removeNullBytes userInput) = false)
    (h2 : (removeNullBytes userInput).data.any isDangerousChar = false) :
    sanitizeAndValidate isWindows cwd userInput =
      match validateOsSpecific isWindows (pathResolve cwd (removeNullBytes userInput)) with
      | .error e => .error e
      | .ok _ => .ok (pathResolve cwd (removeNullBytes userInput)) := by
  simp only [sanitizeAndValidate, h1, h2, Bool.false_eq_true, if_false]

/-- C8: over any working directory made of well-formed segments, the Path
Guard rejects `"../etc/passwd"` and `".."` with the path-traversal
`InvalidPathError`, and accepts `"."`, returning the current working
directory as the normalized absolute path. -/
theorem claim_C8_path_guard (segs : List String)
    (h : ∀ s ∈ segs, validSegB s = true) :
    sanitizeAndValidate false (renderAbs segs) "../etc/passwd" =
      .error "Path traversal sequences (\"../\") are not allowed." ∧
    sanitizeAndValidate false (renderAbs segs) ".." =
      .error "Path traversal sequences (\"../\") are not allowed." ∧
    sanitizeAndValidate false (renderAbs segs) "." = .ok (renderAbs segs) := by
  refine ⟨sanitize_traversal_error false _ _ (by decide),
    sanitize_traversal_error false _ _ (by decide), ?_⟩
  have hvalid : ∀ s ∈ segs, s ≠ "" ∧ s ≠ "." ∧ s ≠ ".." ∧ '/' ∉ s.data := by
    intro s hs
    obtain ⟨a, b, c, d, -⟩ := validSegB_spec s (h s hs)
    exact ⟨a, b, c, d⟩
  rw [sanitize_clean_shape false _ _ (by decide) (by decide)]
  rw [show removeNullBytes "." = "." from rfl]
  rw [pathResolve_dot segs hvalid, validateOsSpecific_renderAbs segs h]

/-- Witness for C8 with the concrete working directory
`/root/workspace`. -/
theorem claim_C8_witness :
    (∀ s ∈ ["root", "workspace"], validSegB s = true) ∧
    sanitizeAndValidate false "/root/workspace" "../etc/passwd" =
      .error "Path traversal sequences (\"../\") are not allowed." ∧
    sanitizeAndValidate false "/root/workspace" ".." =
      .error "Path traversal sequences (\"../\") are not allowed." ∧
    sanitizeAndValidate false "/root/workspace" "." = .ok "/root/workspace" := by
  refine ⟨by decide, ?_, ?_, ?_⟩
  · exact (claim_C8_path_guard ["root", "workspace"] (by decide)).1
  · exact (claim_C8_path_guard ["root", "workspace"] (by decide)).2.1
  · exact (claim_C8_path_guard ["root", "workspace"] (by decide)).2.2

/-! ## Claim C5: rename probing and the 1000-probe cutoff -/

/-- Loop analysis, success case: when the first free candidate is at
index `k0 ≤ 999`, the loop entered at `counter ≤ k0` (all candidates in
between existing) returns that candidate. -/
theorem findLoopAux_first_free (f : String → Bool) (filePath dir baseName ext : String)
    (fuel : Nat) :
    ∀ counter k0 : Nat, counter + fuel = 1001 → counter ≤ k0 → k0 ≤ 999 →
      f (candidateName dir baseName ext k0) = false →
      (∀ k, counter ≤ k → k < k0 → f (candidateName dir baseName ext k) = true) →
      findLoopAux f filePath dir baseName ext fuel counter =
        .ok (candidateName dir baseName ext k0) := by
  induction fuel with
  | zero =>
    intro counter k0 hsum hck hk9 _ _
    omega
  | succ n ih =>
    intro counter k0 hsum hck hk9 hfree hbusy
    simp only [findLoopAux]
    rw [if_neg (by omega)]
    by_cases hek : counter = k0
    · subst hek
      simp only [candidateName] at hfree
      rw [hfree]
      simp [candidateName]
    · have hbc : f (candidateName dir baseName ext counter) = true :=
        hbusy counter le_rfl (by omega)
      simp only [candidateName] at hbc
      rw [hbc]
      simp only [if_true]
      exact ih (counter + 1) k0 (by omega) (by omega) hk9 hfree
        (fun k h1 h2 => hbusy k (by omega) h2)

/-- Loop analysis, exhaustion case: when every candidate up to index 999
exists, the loop fails with the `Too many file conflicts` error — the
candidate at index 1000 is built but never probed. -/
theorem findLoopAux_exhausted (f : String → Bool) (filePath dir baseName ext : String)
    (fuel : Nat) :
    ∀ counter : Nat, counter + fuel = 1001 →
      (∀ k, counter ≤ k → k ≤ 999 → f (candidateName dir baseName ext k) = true) →
      findLoopAux f filePath dir baseName ext fuel counter =
        .error (.other ("Too many file conflicts for " ++ filePath)) := by
  induction fuel with
  | zero => intro counter _ _; rfl
  | succ n ih =>
    intro counter hsum hbusy
    simp only [findLoopAux]
    by_cases hc : counter + 1 > 1000
    · rw [if_pos hc]
    · rw [if_neg hc]
      have hbc : f (candidateName dir baseName ext counter) = true :=
        hbusy counter le_rfl (by omega)
      simp only [candidateName] at hbc
      rw [hbc]
      simp only [if_true]
      exact ih (counter + 1) (by omega) (fun k h1 h2 => hbusy k (by omega) h2)

/-- C5 (amended): the rename probe returns the first free candidate among
`name(1)…name(999)` only; when candidates 1 through 999 all exist it
fails with `Too many file conflicts` after probing 999 candidates — the
1000th candidate is generated but never probed, even if it is free.  The
last conjunct is the spec scenario: organizing onto an occupied
`Documents/a.txt` with a free `Documents/a(1).txt` lands on
`Documents/a(1).txt`. -/
theorem claim_C5_rename_probing (f : String → Bool) (filePath : String) :
    (∀ k0 : Nat, 1 ≤ k0 → k0 ≤ 999 →
      f (candidateOf filePath k0) = false →
      (∀ k, 1 ≤ k → k < k0 → f (candidateOf filePath k) = true) →
      findAvailableName f filePath = .ok (candidateOf filePath k0)) ∧
    ((∀ k, 1 ≤ k → k ≤ 999 → f (candidateOf filePath k) = true) →
      findAvailableName f filePath =
        .error (.other ("Too many file conflicts for " ++ filePath))) ∧
    resolve (fun s => s = "Documents/a.txt") "a.txt" "Documents/a.txt"
        ConflictStrategy.rename = .ok "Documents/a(1).txt" := by
  refine ⟨?_, ?_, by decide⟩
  · intro k0 h1 h9 hfree hbusy
    exact findLoopAux_first_free f filePath _ _ _ 1000 1 k0 (by omega) h1 h9 hfree hbusy
  · intro hbusy
    exact findLoopAux_exhausted f filePath _ _ _ 1000 1 (by omega) hbusy

set_option maxRecDepth 10000 in
/-- Counterexample to C5 as stated: candidates `a(1)…a(999)` all exist and
`a(1000).txt` — the 1000th candidate of the probe sequence — does not, yet
the resolver does not return this first unused name: it fails with
`Too many file conflicts` without ever probing it. -/
theorem claim_C5_counterexample :
    findAvailableName c5FileExists "Documents/a.txt" =
      .error (.other "Too many file conflicts for Documents/a.txt") ∧
    c5FileExists "Documents/a(1000).txt" = false ∧
    candidateOf "Documents/a.txt" 1000 = "Documents/a(1000).txt" := by
  refine ⟨by decide, by decide, by decide⟩

/-- Witness for C5 (amended): with candidates 1 busy and 2 free the probe
returns `Documents/a(2).txt`, and the spec scenario resolves onto
`Documents/a(1).txt`. -/
theorem claim_C5_witness :
    findAvailableName w5FileExists "Documents/a.txt" = .ok "Documents/a(2).txt" ∧
    resolve (fun s => s = "Documents/a.txt") "a.txt" "Documents/a.txt"
        ConflictStrategy.rename = .ok "Documents/a(1).txt" := by
  constructor
  · have h := (claim_C5_rename_probing w5FileExists "Documents/a.txt").1 2
      (by omega) (by omega) (by decide)
      (by
        intro k h1 h2
        have hk : k = 1 := by omega
        subst hk
        decide)
    rw [show candidateOf "Documents/a.txt" 2 = "Documents/a(2).txt" from by decide] at h
    exact h
  · exact (claim_C5_rename_probing w5FileExists "Documents/a.txt").2.2

/-! ## Claim C6: every submitted file yields exactly one outcome -/

/-- The successful results of the scheduling pipeline carry exactly the
paths of the files whose processing succeeded, in submission order. -/
theorem results_paths_eq_filter (g : String → Option CategorizedFile)
    (hpath : ∀ f r, g f = some r → r.path = f) :
    ∀ l : List String,
      ((l.map (fun f => (f, g f))).filterMap (fun t => t.2)).map (fun r => r.path) =
        l.filter (fun f => (g f).isSome) := by
  intro l
  induction l with
  | nil => rfl
  | cons f rest ih =>
    cases hgf : g f with
    | none => simpa [List.filterMap_cons, hgf] using ih
    | some r =>
      have hr : r.path = f := hpath f r hgf
      simpa [List.filterMap_cons, hgf, hr] using ih

/-- The failure channel of the scheduling pipeline carries exactly the
files whose processing returned `null`, in submission order. -/
theorem failures_eq_filter (g : String → Option CategorizedFile) :
    ∀ l : List String,
      ((l.map (fun f => (f, g f))).filter (fun t => t.2.isNone)).map (fun t => t.1) =
        l.filter (fun f => (g f).isNone) := by
  intro l
  induction l with
  | nil => rfl
  | cons f rest ih =>
    cases hgf : g f with
    | none => simpa [List.filter_cons, hgf] using ih
    | some r => simpa [List.filter_cons, hgf] using ih

/-- C6: in `categorizeDirectory`, with distinct scanned files and per-file
work whose successful result carries the file's own path, every submitted
file contributes exactly one outcome: the successful results' paths are
precisely the files whose work succeeded and the failure channel precisely
those whose work failed; a successful file appears exactly once among the
results and never among the failures, and a failed file appears exactly
once in the failure channel and never among the results. -/
theorem claim_C6_exactly_once (attemptResult : String → Nat → AttemptOutcome)
    (files : List String) (hnodup : files.Nodup)
    (hpath : ∀ f r, (retryFrom (attemptResult f) LIMITS_MAX_RETRIES 1).result = some r →
      r.path = f) :
    ((categorizeDirectory attemptResult files).1.map (fun r => r.path) =
      files.filter (fun f => ((retryFrom (attemptResult f) LIMITS_MAX_RETRIES 1).result).isSome)) ∧
    ((categorizeDirectory attemptResult files).2 =
      files.filter (fun f => ((retryFrom (attemptResult f) LIMITS_MAX_RETRIES 1).result).isNone)) ∧
    (∀ f ∈ files,
      (((retryFrom (attemptResult f) LIMITS_MAX_RETRIES 1).result).isSome →
        ((categorizeDirectory attemptResult files).1.map (fun r => r.path)).count f = 1 ∧
        f ∉ (categorizeDirectory attemptResult files).2) ∧
      (((retryFrom (attemptResult f) LIMITS_MAX_RETRIES 1).result).isNone →
        f ∉ (categorizeDirectory attemptResult files).1.map (fun r => r.path) ∧
        (categorizeDirectory attemptResult files).2.count f = 1)) := by
  have h1 : (categorizeDirectory attemptResult files).1.map (fun r => r.path) =
      files.filter (fun f => ((retryFrom (attemptResult f) LIMITS_MAX_RETRIES 1).result).isSome) :=
    results_paths_eq_filter _ hpath files
  have h2 : (categorizeDirectory attemptResult files).2 =
      files.filter (fun f => ((retryFrom (attemptResult f) LIMITS_MAX_RETRIES 1).result).isNone) :=
    failures_eq_filter _ files
  refine ⟨h1, h2, ?_⟩
  intro f hf
  constructor
  · intro hsome
    refine ⟨?_, ?_⟩
    · rw [h1, List.count_filter
        (p := fun f => ((retryFrom (attemptResult f) LIMITS_MAX_RETRIES 1).result).isSome)
        (a := f) hsome]
      exact List.count_eq_one_of_mem hnodup hf
    · rw [h2]
      intro hmem
      have hN := (List.mem_filter.mp hmem).2
      rw [Option.isNone_iff_eq_none] at hN
      rw [hN] at hsome
      simp at hsome
  · intro hnone
    refine ⟨?_, ?_⟩
    · rw [h1]
      intro hmem
      have hS := (List.mem_filter.mp hmem).2
      rw [Option.isNone_iff_eq_none] at hnone
      rw [hnone] at hS
      simp at hS
    · rw [h2, List.count_filter
        (p := fun f => ((retryFrom (attemptResult f) LIMITS_MAX_RETRIES 1).result).isNone)
        (a := f) hnone]
      exact List.count_eq_one_of_mem hnodup hf

/-- Witness for C6: of the three submitted files, the two successes appear
exactly once each in the result list and the failed file only on the
failure channel. -/
theorem claim_C6_witness :
    (categorizeDirectory w6Attempt ["/d/a.txt", "/d/b.txt", "/d/c.txt"]).1.map
        (fun r => r.path) = ["/d/a.txt", "/d/c.txt"] ∧
    (categorizeDirectory w6Attempt ["/d/a.txt", "/d/b.txt", "/d/c.txt"]).2 = ["/d/b.txt"] ∧
    ((categorizeDirectory w6Attempt ["/d/a.txt", "/d/b.txt", "/d/c.txt"]).1.map
        (fun r => r.path)).count "/d/a.txt" = 1 := by
  have h := claim_C6_exactly_once w6Attempt ["/d/a.txt", "/d/b.txt", "/d/c.txt"]
    (by decide)
    (by
      intro f r hr
      by_cases hb : f = "/d/b.txt"
      · subst hb
        rw [show (retryFrom (w6Attempt "/d/b.txt") LIMITS_MAX_RETRIES 1).result = none
          from by decide] at hr
        cases hr
      · have : (retryFrom (w6Attempt f) LIMITS_MAX_RETRIES 1).result =
            some { path := f, category := "Documents" } := by
          rw [retryFrom]
          simp only [LIMITS_MAX_RETRIES]
          simp [retryAux, w6Attempt, hb]
        rw [this] at hr
        injection hr with hr
        rw [← hr])
  refine ⟨?_, ?_, ?_⟩
  · rw [h.1]
    decide
  · rw [h.2.1]
    decide
  · exact ((h.2.2 "/d/a.txt" (by decide)).1 (by decide)).1

/-! ## Claim C7: cache miss on empty fingerprint, store no-op without one -/

/-- C7: a Result Cache lookup with an empty/absent fingerprint (the falsy
`hash` of the TypeScript signature, modeled by the empty string) returns a
miss whatever the table holds, and storing a result whose `hash` field is
falsy (absent or empty) returns without touching the table and without an
error. -/
theorem claim_C7_cache_empty_fingerprint (db : CacheStore) :
    (∀ filePath : String, getCachedCategorization db filePath "" = none) ∧
    (∀ file : CategorizedFile, file.hash = none ∨ file.hash = some "" →
      setCachedCategorization db file = db) := by
  constructor
  · intro filePath
    simp [getCachedCategorization]
  · intro file h
    rcases h with h | h <;> simp [setCachedCategorization, h]

/-- Witness for C7 at a concrete table and a concrete un-fingerprinted
result. -/
theorem claim_C7_witness :
    getCachedCategorization [(("/a", "h1"), ("Docs", none))] "/a" "" = none ∧
    setCachedCategorization [(("/a", "h1"), ("Docs", none))]
      { path := "/b", category := "Images" } = [(("/a", "h1"), ("Docs", none))] := by
  exact ⟨(claim_C7_cache_empty_fingerprint _).1 "/a",
         (claim_C7_cache_empty_fingerprint _).2 { path := "/b", category := "Images" }
           (Or.inl rfl)⟩

/-! ## Claim C10: no conflict, no strategy consultation -/

/-- C10: whenever the intended destination does not exist, `resolve`
returns it unchanged and raises nothing, for every strategy (including
`skip` and `ask`). -/
theorem claim_C10_no_conflict_identity (fileExists : String → Bool)
    (sourcePath destinationPath : String) (strategy : ConflictStrategy)
    (h : fileExists destinationPath = false) :
    resolve fileExists sourcePath destinationPath strategy = .ok destinationPath := by
  simp [resolve, h]

/-- Witness for C10 on an empty filesystem with the `ask` strategy. -/
theorem claim_C10_witness :
    (fun _ : String => false) "Documents/a.txt" = false ∧
    resolve (fun _ => false) "a.txt" "Documents/a.txt" ConflictStrategy.ask =
      .ok "Documents/a.txt" :=
  ⟨rfl, claim_C10_no_conflict_identity (fun _ => false) "a.txt" "Documents/a.txt"
    ConflictStrategy.ask rfl⟩

end Sortoi
